import Mathlib

/-!
# AgentBridge workflow engine — formal model

Shallow embedding of `src/agentbridge/workflow.py` (the workflow scheduling
engine): task graph data model, dependency resolver, variable resolver,
execution control loop, and the execution registry.  Python dicts are
modelled as association lists with overwrite-or-append insertion, Python
dynamic values as the inductive `PyValue` with Python truthiness, wall-clock
timestamps as abstract `Nat` instants supplied by the caller, and the
asynchronous dispatch of a round of tasks as an externally supplied list of
outcomes (`Except String PyValue`, one per dispatched task).
-/

set_option maxHeartbeats 1000000

namespace AgentBridge

/-- A dynamic Python value as it flows through task inputs, results and
workflow variables: `None`, booleans, integers, strings, lists and
string-keyed dicts. -/
inductive PyValue where
  | vNone : PyValue
  | vBool : Bool → PyValue
  | vInt : Int → PyValue
  | vStr : String → PyValue
  | vList : List PyValue → PyValue
  | vDict : List (String × PyValue) → PyValue

/-- Python truthiness of a value: `None`, `False`, `0`, `""`, `[]` and
`{}` are falsy, everything else truthy. -/
def PyValue.truthy : PyValue → Bool
  | PyValue.vNone => false
  | PyValue.vBool b => b
  | PyValue.vInt n => n != 0
  | PyValue.vStr s => s != ""
  | PyValue.vList l => !l.isEmpty
  | PyValue.vDict d => !d.isEmpty

/-- Truthiness of an `Optional[Any]` field (`None` is falsy). -/
def optTruthy : Option PyValue → Bool
  | Option.none => false
  | Option.some v => v.truthy

/-- Lookup in an association list modelling a Python dict
(`m[k]` / `k in m`). -/
def assocLookup {α : Type} : List (String × α) → String → Option α
  | [], _ => Option.none
  | (k', v) :: rest, k => if k' = k then Option.some v else assocLookup rest k

/-- Python dict assignment `m[k] = v`: overwrite the existing binding in
place, or append a fresh one. -/
def assocInsert {α : Type} : List (String × α) → String → α → List (String × α)
  | [], k, v => [(k, v)]
  | (k', v') :: rest, k, v =>
      if k' = k then (k, v) :: rest else (k', v') :: assocInsert rest k v

/-- Python `del m[k]`: drop the binding of `k`. -/
def assocErase {α : Type} : List (String × α) → String → List (String × α)
  | [], _ => []
  | (k', v') :: rest, k =>
      if k' = k then assocErase rest k else (k', v') :: assocErase rest k

/-- The keys of an association list. -/
def assocKeys {α : Type} (m : List (String × α)) : List String :=
  m.map Prod.fst

/-- `TaskStatus` (workflow.py lines 30-36). -/
inductive TaskStatus where
  | pending | running | completed | failed | skipped
  deriving DecidableEq

/-- `WorkflowStatus` (workflow.py lines 20-27). -/
inductive WorkflowStatus where
  | pending | running | paused | completed | failed | cancelled
  deriving DecidableEq

/-- `TaskDefinition` (workflow.py lines 39-50).  `retry_delay` (a float the
engine never reads) is modelled at unit granularity. -/
structure TaskDefinition where
  id : String
  framework : String
  operation : String
  inputs : List (String × PyValue) := []
  outputs : List String := []
  dependencies : List String := []
  timeout : Nat := 300
  retry_attempts : Nat := 3
  retry_delay : Nat := 1

/-- `WorkflowDefinition` (workflow.py lines 53-63). -/
structure WorkflowDefinition where
  id : String
  name : String
  description : String
  tasks : List TaskDefinition
  start_tasks : List String := []
  end_tasks : List String := []
  timeout : Nat := 3600
  metadata : List (String × PyValue) := []

/-- `TaskExecution` (workflow.py lines 66-75). -/
structure TaskExecution where
  task_def : TaskDefinition
  status : TaskStatus := TaskStatus.pending
  started_at : Option Nat := Option.none
  completed_at : Option Nat := Option.none
  result : Option PyValue := Option.none
  error : Option String := Option.none
  retry_count : Nat := 0

/-- `WorkflowExecution` (workflow.py lines 78-88). -/
structure WorkflowExecution where
  workflow_def : WorkflowDefinition
  id : String
  status : WorkflowStatus := WorkflowStatus.pending
  started_at : Option Nat := Option.none
  completed_at : Option Nat := Option.none
  task_executions : List (String × TaskExecution) := []
  «variables» : List (String × PyValue) := []
  error : Option String := Option.none

/-- The mutable state of a `WorkflowEngine` (workflow.py lines 96-101):
the registries of definitions and in-flight executions. -/
structure WorkflowEngineState where
  workflow_definitions : List (String × WorkflowDefinition) := []
  active_executions : List (String × WorkflowExecution) := []

/-- `_calculate_start_end_tasks` (workflow.py lines 109-128): start tasks
are those with an empty dependency list or a dependency set disjoint from
the workflow's task ids; end tasks are those no task depends on.  The
computed lists are stored on the definition. -/
def calculate_start_end_tasks (workflow_def : WorkflowDefinition) : WorkflowDefinition :=
  let all_task_ids := workflow_def.tasks.map (fun task => task.id)
  let start_tasks :=
    (workflow_def.tasks.filter (fun task =>
      task.dependencies.isEmpty ||
        task.dependencies.all (fun dep => !all_task_ids.contains dep))).map
      (fun task => task.id)
  let dependent_tasks := workflow_def.tasks.flatMap (fun task => task.dependencies)
  let end_tasks :=
    (workflow_def.tasks.filter (fun task => !dependent_tasks.contains task.id)).map
      (fun task => task.id)
  { workflow_def with start_tasks := start_tasks, end_tasks := end_tasks }

/-- `register_workflow` (workflow.py lines 103-107): store the definition
under its id, with its start/end task lists computed. -/
def register_workflow (defs : List (String × WorkflowDefinition))
    (workflow_def : WorkflowDefinition) : List (String × WorkflowDefinition) :=
  assocInsert defs workflow_def.id (calculate_start_end_tasks workflow_def)

/-- The literal `"$\x7b"` that opens a reference expression. -/
def refOpen : String := "$\x7b"

/-- The literal `"\x7d"` that closes a reference expression. -/
def refClose : String := "\x7d"

/-- Python `s.startswith(pre)`. -/
def strStartsWith (s pre : String) : Bool :=
  pre.data.isPrefixOf s.data

/-- Python `s.endswith(suf)`. -/
def strEndsWith (s suf : String) : Bool :=
  suf.data.isSuffixOf s.data

/-- Python `s[n:]`. -/
def strDrop (s : String) (n : Nat) : String :=
  String.mk (s.data.drop n)

/-- Python `s[:-n]` (for `n ≤ len(s)`). -/
def strDropRight (s : String) (n : Nat) : String :=
  String.mk (s.data.take (s.data.length - n))

/-- Python `c in s` for a single-character `c`. -/
def strContainsChar (s : String) (c : Char) : Bool :=
  s.data.contains c

/-- Split a character list at the first occurrence of `c`
(Python `s.split(c, 1)` when `c` occurs in `s`). -/
def splitFirst (c : Char) : List Char → List Char × List Char
  | [] => ([], [])
  | x :: xs =>
    if x = c then ([], xs)
    else
      let r := splitFirst c xs
      (x :: r.1, r.2)

/-- The resolution of one input value by `_resolve_inputs`
(workflow.py lines 134-159), as the optional value assigned to the input's
key: `Option.none` when the source's branch structure assigns nothing for
this key (a dotted reference whose task id has no `TaskExecution`). -/
def resolveValue (workflow_execution : WorkflowExecution) (value : PyValue) :
    Option PyValue :=
  match value with
  | PyValue.vStr s =>
    if strStartsWith s refOpen && strEndsWith s refClose then
      let var_path := strDropRight (strDrop s 2) 1
      if strContainsChar var_path '.' then
        let parts := splitFirst '.' var_path.data
        let task_id := String.mk parts.1
        let output_name := String.mk parts.2
        match assocLookup workflow_execution.task_executions task_id with
        | Option.some task_exec =>
          match task_exec.result with
          | Option.some r =>
            if task_exec.status = TaskStatus.completed && r.truthy then
              match r with
              | PyValue.vDict d =>
                match assocLookup d output_name with
                | Option.some v => Option.some v
                | Option.none => Option.some (PyValue.vDict d)
              | _ => Option.some r
            else Option.some value
          | Option.none => Option.some value
        | Option.none => Option.none
      else
        match assocLookup workflow_execution.«variables» var_path with
        | Option.some v => Option.some v
        | Option.none => Option.some value
    else Option.some value
  | _ => Option.some value

/-- The per-input resolution policy in the words of the (amended)
specification, for comparison with the source's `resolveValue`: a reference
string with a dotted path whose referenced `TaskExecution` exists and is
completed with a truthy result resolves to the named entry of a map result
containing the output name and otherwise to the whole result; with the
`TaskExecution` existing but not completed, or its result falsy, the
original string passes through; with no `TaskExecution` for the task id the
key is omitted (`Option.none`).  An undotted path reads the variable space
when the name is present and passes through otherwise; any other value is a
literal. -/
def resolveValueSpec (workflow_execution : WorkflowExecution)
    (value : PyValue) : Option PyValue :=
  match value with
  | PyValue.vStr s =>
    if strStartsWith s refOpen && strEndsWith s refClose then
      let path := strDropRight (strDrop s 2) 1
      if strContainsChar path '.' then
        let referenced_task := String.mk (splitFirst '.' path.data).1
        let output_name := String.mk (splitFirst '.' path.data).2
        match assocLookup workflow_execution.task_executions referenced_task with
        | Option.none => Option.none
        | Option.some task_exec =>
          if task_exec.status = TaskStatus.completed && optTruthy task_exec.result then
            match task_exec.result.getD PyValue.vNone with
            | PyValue.vDict d =>
                Option.some ((assocLookup d output_name).getD (PyValue.vDict d))
            | r => Option.some r
          else Option.some value
      else
        match assocLookup workflow_execution.«variables» path with
        | Option.some v => Option.some v
        | Option.none => Option.some value
    else Option.some value
  | _ => Option.some value

/-- The loop body of `_resolve_inputs`: assign the key its resolution when
the source assigns one. -/
def resolveStep (workflow_execution : WorkflowExecution)
    (resolved : List (String × PyValue)) (kv : String × PyValue) :
    List (String × PyValue) :=
  match resolveValue workflow_execution kv.2 with
  | Option.some v => assocInsert resolved kv.1 v
  | Option.none => resolved

/-- `_resolve_inputs` (workflow.py lines 130-161): fold the loop body over
the declared inputs, starting from the empty dict. -/
def resolve_inputs (task_def : TaskDefinition)
    (workflow_execution : WorkflowExecution) : List (String × PyValue) :=
  task_def.inputs.foldl (resolveStep workflow_execution) []

/-- `_check_dependencies_met` (workflow.py lines 213-223): every dependency
id has a `TaskExecution` with status `completed`. -/
def check_dependencies_met (task_def : TaskDefinition)
    (workflow_execution : WorkflowExecution) : Bool :=
  task_def.dependencies.all (fun dep_task_id =>
    match assocLookup workflow_execution.task_executions dep_task_id with
    | Option.none => false
    | Option.some dep_task_exec => dep_task_exec.status = TaskStatus.completed)

/-- `_get_ready_tasks` (workflow.py lines 225-235): tasks with no
`TaskExecution` yet whose dependencies are all met. -/
def get_ready_tasks (workflow_execution : WorkflowExecution) :
    List TaskDefinition :=
  workflow_execution.workflow_def.tasks.filter (fun task_def =>
    (assocLookup workflow_execution.task_executions task_def.id).isNone &&
      check_dependencies_met task_def workflow_execution)

/-- The tasks of the round's completion check (workflow.py lines 267-270):
the `TaskExecution`s whose status is completed or skipped. -/
def completedOrSkipped (workflow_execution : WorkflowExecution) :
    List (String × TaskExecution) :=
  workflow_execution.task_executions.filter (fun p =>
    p.2.status = TaskStatus.completed || p.2.status = TaskStatus.skipped)

/-- The completion test of the control loop (workflow.py line 272):
as many completed-or-skipped `TaskExecution`s as the workflow has tasks. -/
def allTasksComplete (workflow_execution : WorkflowExecution) : Bool :=
  (completedOrSkipped workflow_execution).length =
    workflow_execution.workflow_def.tasks.length

/-- The body of the no-ready-tasks branch (workflow.py lines 265-280): when
every task is accounted for, transition to completed and record the end
time; otherwise sleep briefly and loop again with the state unchanged. -/
def checkCompletionStep (workflow_execution : WorkflowExecution) (now : Nat) :
    WorkflowExecution :=
  if allTasksComplete workflow_execution then
    { workflow_execution with
        status := WorkflowStatus.completed, completed_at := Option.some now }
  else workflow_execution

/-- The state effect of one awaited `_execute_task` coroutine
(workflow.py lines 163-211), with the dispatch over the bridge represented
by its outcome: a result value, or the message of the raised exception.  On
success the task's `TaskExecution` is stored completed with its result and
each declared output present in a dict result is published into the
workflow's variable space as `"<task-id>.<output-name>"`; on failure the
`TaskExecution` is stored failed with the error message. -/
def applyTaskOutcome (workflow_execution : WorkflowExecution)
    (task_def : TaskDefinition) (outcome : Except String PyValue)
    (startT endT : Nat) : WorkflowExecution :=
  match outcome with
  | Except.ok result =>
    let task_exec : TaskExecution :=
      { task_def := task_def, status := TaskStatus.completed,
        started_at := Option.some startT, completed_at := Option.some endT,
        result := Option.some result, error := Option.none, retry_count := 0 }
    let vars :=
      if !task_def.outputs.isEmpty then
        match result with
        | PyValue.vDict d =>
          task_def.outputs.foldl
            (fun vs output_name =>
              match assocLookup d output_name with
              | Option.some v =>
                  assocInsert vs (task_def.id ++ "." ++ output_name) v
              | Option.none => vs)
            workflow_execution.«variables»
        | _ => workflow_execution.«variables»
      else workflow_execution.«variables»
    { workflow_execution with
        task_executions :=
          assocInsert workflow_execution.task_executions task_def.id task_exec,
        «variables» := vars }
  | Except.error e =>
    let task_exec : TaskExecution :=
      { task_def := task_def, status := TaskStatus.failed,
        started_at := Option.some startT, completed_at := Option.some endT,
        result := Option.none, error := Option.some e, retry_count := 0 }
    { workflow_execution with
        task_executions :=
          assocInsert workflow_execution.task_executions task_def.id task_exec }

/-- The first exception among the round's gathered results
(workflow.py lines 291-299). -/
def firstError : List (Except String PyValue) → Option String
  | [] => Option.none
  | Except.error e :: _ => Option.some e
  | Except.ok _ :: rest => firstError rest

/-- The state effects of all of a round's dispatched coroutines in
sequence (`asyncio.gather` with `return_exceptions=True` runs every one to
its individual conclusion). -/
def applyRoundOutcomes (now : Nat) (workflow_execution : WorkflowExecution) :
    List (TaskDefinition × Except String PyValue) → WorkflowExecution
  | [] => workflow_execution
  | td :: rest =>
      applyRoundOutcomes now
        (applyTaskOutcome workflow_execution td.1 td.2 now now) rest

/-- One round of the control loop over its ready tasks
(workflow.py lines 282-304): run all dispatches to their individual
conclusion, then scan the gathered results in order; at the first exception
mark the whole execution failed with that error and record the end time. -/
def processRound (workflow_execution : WorkflowExecution)
    (dispatched : List (TaskDefinition × Except String PyValue)) (now : Nat) :
    WorkflowExecution :=
  let afterTasks := applyRoundOutcomes now workflow_execution dispatched
  match firstError (dispatched.map (fun td => td.2)) with
  | Option.some e =>
    { afterTasks with
        status := WorkflowStatus.failed, error := Option.some e,
        completed_at := Option.some now }
  | Option.none => afterTasks

/-- The fresh `WorkflowExecution` built by `execute_workflow`
(workflow.py lines 244-252). -/
def initExecution (workflow_def : WorkflowDefinition) (execution_id : String)
    (input_variables : List (String × PyValue)) (now : Nat) :
    WorkflowExecution :=
  { workflow_def := workflow_def, id := execution_id,
    status := WorkflowStatus.running, started_at := Option.some now,
    completed_at := Option.none, task_executions := [],
    «variables» := input_variables, error := Option.none }

/-- The `while` loop of `execute_workflow` (workflow.py lines 261-304),
driven by `fuel` loop iterations and an `oracle` giving the outcomes of the
dispatches of round `roundIdx`; `Option.none` means the loop (and hence the
call) has not yet returned after `fuel` iterations; round indices double as
the abstract instants recorded in timestamps. -/
def runLoop (oracle : Nat → List (Except String PyValue)) :
    Nat → Nat → WorkflowExecution → Option WorkflowExecution
  | 0, _, _ => Option.none
  | fuel + 1, roundIdx, workflow_execution =>
    if workflow_execution.status = WorkflowStatus.running then
      match get_ready_tasks workflow_execution with
      | [] =>
        if allTasksComplete workflow_execution then
          Option.some
            { workflow_execution with
                status := WorkflowStatus.completed,
                completed_at := Option.some roundIdx }
        else runLoop oracle fuel roundIdx workflow_execution
      | ready =>
        let we' :=
          processRound workflow_execution (ready.zip (oracle roundIdx)) roundIdx
        if we'.status = WorkflowStatus.running then
          runLoop oracle fuel (roundIdx + 1) we'
        else Option.some we'
    else Option.some workflow_execution

/-- `execute_workflow` (workflow.py lines 237-319): look the definition up
(unknown id raises), create and register the execution, then run the
control loop to its end *within the call*; on return the final execution is
handed back and, its status being terminal, the instance is deleted from
the registry (the `finally` cleanup).  `Except.ok Option.none` stands for a
call still inside the loop after `fuel` iterations. -/
def execute_workflow (s : WorkflowEngineState) (workflow_id : String)
    (input_variables : List (String × PyValue)) (execution_id : String)
    (oracle : Nat → List (Except String PyValue)) (fuel : Nat) (now : Nat) :
    Except String (Option (String × WorkflowExecution × WorkflowEngineState)) :=
  match assocLookup s.workflow_definitions workflow_id with
  | Option.none => Except.error ("Workflow " ++ workflow_id ++ " not found")
  | Option.some workflow_def =>
    let workflow_execution :=
      initExecution workflow_def execution_id input_variables now
    let s1 :=
      { s with
          active_executions :=
            assocInsert s.active_executions execution_id workflow_execution }
    match runLoop oracle fuel 0 workflow_execution with
    | Option.none => Except.ok Option.none
    | Option.some final =>
      let s2 :=
        { s1 with
            active_executions :=
              assocInsert s1.active_executions execution_id final }
      let s3 :=
        if final.status = WorkflowStatus.completed ∨
            final.status = WorkflowStatus.failed ∨
            final.status = WorkflowStatus.cancelled then
          { s2 with
              active_executions := assocErase s2.active_executions execution_id }
        else s2
      Except.ok (Option.some (execution_id, final, s3))

/-- `cancel_workflow` (workflow.py lines 321-333): an unknown execution id
raises (the registry is untouched, the exception propagating before any
mutation); a registered one is force-cancelled, its end time recorded, and
the instance deleted from the registry.  The updated execution record is
returned alongside the new state. -/
def cancel_workflow (s : WorkflowEngineState) (execution_id : String)
    (now : Nat) : Except String (WorkflowExecution × WorkflowEngineState) :=
  match assocLookup s.active_executions execution_id with
  | Option.none =>
      Except.error ("Workflow execution " ++ execution_id ++ " not found")
  | Option.some workflow_execution =>
    let workflow_execution' :=
      { workflow_execution with
          status := WorkflowStatus.cancelled, completed_at := Option.some now }
    Except.ok
      (workflow_execution',
        { s with
            active_executions := assocErase s.active_executions execution_id })

/-- `get_workflow_status` (workflow.py lines 335-337). -/
def get_workflow_status (s : WorkflowEngineState) (execution_id : String) :
    Option WorkflowExecution :=
  assocLookup s.active_executions execution_id

/-- One observable transition of a `WorkflowExecution` under the control
loop of `execute_workflow` (workflow.py lines 261-304) or an external
`cancel_workflow`: a round of concurrently dispatched ready tasks with
externally supplied outcomes, the completed transition when no task is
ready and all are accounted for, or a forced cancellation.  The polling
sleep leaves the state unchanged and is covered by reflexivity. -/
inductive EngineStep : WorkflowExecution → WorkflowExecution → Prop where
  | round (workflow_execution : WorkflowExecution)
      (outcomes : List (Except String PyValue)) (now : Nat)
      (hrun : workflow_execution.status = WorkflowStatus.running)
      (hne : get_ready_tasks workflow_execution ≠ []) :
      EngineStep workflow_execution
        (processRound workflow_execution
          ((get_ready_tasks workflow_execution).zip outcomes) now)
  | complete (workflow_execution : WorkflowExecution) (now : Nat)
      (hrun : workflow_execution.status = WorkflowStatus.running)
      (hempty : get_ready_tasks workflow_execution = [])
      (hall : allTasksComplete workflow_execution = true) :
      EngineStep workflow_execution
        { workflow_execution with
            status := WorkflowStatus.completed, completed_at := Option.some now }
  | cancel (workflow_execution : WorkflowExecution) (now : Nat) :
      EngineStep workflow_execution
        { workflow_execution with
            status := WorkflowStatus.cancelled, completed_at := Option.some now }

/-! Concrete instances used to exercise the claims. -/

/-- A one-task workflow definition. -/
def c1Wf : WorkflowDefinition :=
  { id := "wf1", name := "demo", description := "",
    tasks := [{ id := "task_0", framework := "fw", operation := "op" }] }

/-- An engine state with `c1Wf` registered. -/
def c1State : WorkflowEngineState :=
  { workflow_definitions := register_workflow [] c1Wf }

/-- A dispatch oracle answering every task with a small dict result. -/
def c1Oracle : Nat → List (Except String PyValue) :=
  fun _ => [Except.ok (PyValue.vDict [("out", PyValue.vInt 1)])]

/-- A task whose input `"b"` references the output of a task `t1`. -/
def c2Task : TaskDefinition :=
  { id := "t", framework := "fw", operation := "op",
    inputs := [("b", PyValue.vStr "$\x7bt1.out\x7d")] }

/-- An execution in which no task has started, so `t1` has no
`TaskExecution`. -/
def c2Exec : WorkflowExecution :=
  { workflow_def := { id := "wf2", name := "n", description := "", tasks := [c2Task] },
    id := "e2", status := WorkflowStatus.running }

/-- An already-completed prior task execution holding a stored result. -/
def c4PriorExec : TaskExecution :=
  { task_def := { id := "t9", framework := "fw", operation := "op" },
    status := TaskStatus.completed, result := Option.some (PyValue.vInt 7) }

/-- A round task that will succeed. -/
def c4TaskA : TaskDefinition := { id := "tA", framework := "fw", operation := "opA" }

/-- A round task that will fail. -/
def c4TaskB : TaskDefinition := { id := "tB", framework := "fw", operation := "opB" }

/-- An execution with one prior completed task, about to run a round. -/
def c4Exec : WorkflowExecution :=
  { workflow_def :=
      { id := "wf4", name := "n", description := "",
        tasks := [c4PriorExec.task_def, c4TaskA, c4TaskB] },
    id := "e4", status := WorkflowStatus.running,
    task_executions := [("t9", c4PriorExec)] }

/-- A round in which the first task succeeds and the second fails. -/
def c4Round : List (TaskDefinition × Except String PyValue) :=
  [(c4TaskA, Except.ok (PyValue.vInt 1)), (c4TaskB, Except.error "boom")]

/-- A dependency-free task. -/
def c5Task : TaskDefinition := { id := "task_0", framework := "fw", operation := "op" }

/-- An execution of the one-task workflow whose only task has completed. -/
def c5Exec : WorkflowExecution :=
  { workflow_def := { id := "wf5", name := "n", description := "", tasks := [c5Task] },
    id := "e5", status := WorkflowStatus.running,
    task_executions :=
      [("task_0",
        { task_def := c5Task, status := TaskStatus.completed,
          result := Option.some (PyValue.vInt 1) })] }

/-- A workflow definition with two chained tasks, for registration. -/
def c8WfA : WorkflowDefinition :=
  { id := "w8", name := "A", description := "",
    tasks :=
      [{ id := "t1", framework := "fw", operation := "op" },
       { id := "t2", framework := "fw", operation := "op", dependencies := ["t1"] }] }

/-- A definition with the same task list as `c8WfA` but different
identity and metadata. -/
def c8WfB : WorkflowDefinition :=
  { id := "w8-other", name := "B", description := "different",
    tasks :=
      [{ id := "t1", framework := "fw", operation := "op" },
       { id := "t2", framework := "fw", operation := "op", dependencies := ["t1"] }] }

/-- A task whose only dependency names no task of its workflow. -/
def c9Task : TaskDefinition :=
  { id := "a", framework := "fw", operation := "op", dependencies := ["ghost"] }

/-- A workflow containing only `c9Task`. -/
def c9Wf : WorkflowDefinition :=
  { id := "wf9", name := "n", description := "", tasks := [c9Task] }

/-- A task whose input `"x"` references the output of a task `t1`. -/
def c10Task : TaskDefinition :=
  { id := "t", framework := "fw", operation := "op",
    inputs := [("x", PyValue.vStr "$\x7bt1.out\x7d")] }

/-- An execution in which `t1` completed with an empty-dict (falsy)
result. -/
def c10Exec : WorkflowExecution :=
  { workflow_def := { id := "wf10", name := "n", description := "", tasks := [c10Task] },
    id := "e10", status := WorkflowStatus.running,
    task_executions :=
      [("t1",
        { task_def := { id := "t1", framework := "fw", operation := "op" },
          status := TaskStatus.completed,
          result := Option.some (PyValue.vDict []) })] }

/-! ### Association-list lemmas -/

theorem assocLookup_insert {α : Type} (m : List (String × α)) (k k' : String) (v : α) :
    assocLookup (assocInsert m k v) k' =
      if k = k' then Option.some v else assocLookup m k' := by
  induction m with
  | nil => simp [assocInsert, assocLookup]
  | cons hd tl ih =>
    obtain ⟨k0, v0⟩ := hd
    by_cases h0 : k0 = k
    · subst h0
      by_cases h1 : k0 = k'
      · subst h1; simp [assocInsert, assocLookup]
      · simp [assocInsert, assocLookup, h1]
    · by_cases h1 : k0 = k'
      · subst h1
        have hk : ¬ k = k0 := fun h => h0 h.symm
        simp [assocInsert, assocLookup, h0, hk]
      · simp [assocInsert, assocLookup, h0, h1, ih]

theorem assocLookup_insert_self {α : Type} (m : List (String × α)) (k : String) (v : α) :
    assocLookup (assocInsert m k v) k = Option.some v := by
  simp [assocLookup_insert]

theorem assocLookup_insert_ne {α : Type} (m : List (String × α)) (k k' : String) (v : α)
    (h : k ≠ k') :
    assocLookup (assocInsert m k v) k' = assocLookup m k' := by
  simp [assocLookup_insert, h]

theorem assocInsert_idem {α : Type} (m : List (String × α)) (k : String) (v : α) :
    assocInsert (assocInsert m k v) k v = assocInsert m k v := by
  induction m with
  | nil => simp [assocInsert]
  | cons hd tl ih =>
    obtain ⟨k0, v0⟩ := hd
    by_cases h0 : k0 = k
    · subst h0; simp [assocInsert]
    · simp [assocInsert, h0, ih]

theorem assocLookup_eq_none_iff {α : Type} (m : List (String × α)) (k : String) :
    assocLookup m k = Option.none ↔ k ∉ assocKeys m := by
  induction m with
  | nil => simp [assocLookup, assocKeys]
  | cons hd tl ih =>
    obtain ⟨k0, v0⟩ := hd
    by_cases h0 : k0 = k
    · subst h0; simp [assocLookup, assocKeys]
    · have hne : ¬ k = k0 := fun h => h0 h.symm
      simp only [assocLookup, if_neg h0, assocKeys, List.map_cons, List.mem_cons, ih]
      tauto

theorem assocLookup_mem {α : Type} (m : List (String × α)) (k : String) (v : α)
    (h : assocLookup m k = Option.some v) : (k, v) ∈ m := by
  induction m with
  | nil => simp [assocLookup] at h
  | cons hd tl ih =>
    obtain ⟨k0, v0⟩ := hd
    by_cases h0 : k0 = k
    · subst h0
      simp [assocLookup] at h
      subst h
      exact List.mem_cons_self _ _
    · simp [assocLookup, h0] at h
      exact List.mem_cons_of_mem _ (ih h)

theorem assocLookup_of_mem {α : Type} (m : List (String × α)) (k : String) (v : α)
    (hnd : (assocKeys m).Nodup) (h : (k, v) ∈ m) :
    assocLookup m k = Option.some v := by
  induction m with
  | nil => simp at h
  | cons hd tl ih =>
    obtain ⟨k0, v0⟩ := hd
    simp only [assocKeys, List.map_cons, List.nodup_cons] at hnd
    rcases List.mem_cons.mp h with h1 | h1
    · cases h1
      simp [assocLookup]
    · have hk0 : k0 ≠ k := by
        intro he
        subst he
        exact hnd.1 (List.mem_map.mpr ⟨(k0, v), h1, rfl⟩)
      simp only [assocLookup, if_neg hk0]
      exact ih hnd.2 h1

theorem mem_assocKeys_insert {α : Type} (m : List (String × α)) (k a : String) (v : α) :
    a ∈ assocKeys (assocInsert m k v) ↔ a = k ∨ a ∈ assocKeys m := by
  induction m with
  | nil => simp [assocInsert, assocKeys, eq_comm]
  | cons hd tl ih =>
    obtain ⟨k0, v0⟩ := hd
    by_cases h0 : k0 = k
    · subst h0
      have hi : assocInsert ((k0, v0) :: tl) k0 v = (k0, v) :: tl := by
        simp [assocInsert]
      rw [hi]
      simp only [assocKeys, List.map_cons, List.mem_cons]
      tauto
    · simp only [assocInsert, if_neg h0, assocKeys, List.map_cons, List.mem_cons] at ih ⊢
      rw [ih]
      tauto

theorem nodup_assocKeys_insert {α : Type} (m : List (String × α)) (k : String) (v : α)
    (hnd : (assocKeys m).Nodup) : (assocKeys (assocInsert m k v)).Nodup := by
  induction m with
  | nil => simp [assocInsert, assocKeys]
  | cons hd tl ih =>
    obtain ⟨k0, v0⟩ := hd
    simp only [assocKeys, List.map_cons, List.nodup_cons] at hnd
    by_cases h0 : k0 = k
    · subst h0
      simpa [assocInsert, assocKeys, List.nodup_cons] using hnd
    · simp only [assocInsert, if_neg h0, assocKeys, List.map_cons, List.nodup_cons]
      constructor
      · intro hmem
        rcases (mem_assocKeys_insert tl k k0 v).mp hmem with h1 | h1
        · exact h0 h1
        · exact hnd.1 h1
      · exact ih hnd.2

theorem assocLookup_erase_self {α : Type} (m : List (String × α)) (k : String) :
    assocLookup (assocErase m k) k = Option.none := by
  induction m with
  | nil => simp [assocErase, assocLookup]
  | cons hd tl ih =>
    obtain ⟨k0, v0⟩ := hd
    by_cases h0 : k0 = k
    · simp [assocErase, h0, ih]
    · simp [assocErase, assocLookup, h0, ih]

theorem assocLookup_erase_ne {α : Type} (m : List (String × α)) (k k' : String)
    (h : k' ≠ k) : assocLookup (assocErase m k) k' = assocLookup m k' := by
  induction m with
  | nil => simp [assocErase]
  | cons hd tl ih =>
    obtain ⟨k0, v0⟩ := hd
    by_cases h0 : k0 = k
    · subst h0
      have h1 : ¬ k0 = k' := fun he => h he.symm
      simp [assocErase, assocLookup, h1, ih]
    · by_cases h1 : k0 = k'
      · subst h1; simp [assocErase, assocLookup, h0]
      · simp [assocErase, assocLookup, h0, h1, ih]

/-! ### Variable-resolver lemmas -/

theorem resolveValue_eq_spec (we : WorkflowExecution) (value : PyValue) :
    resolveValue we value = resolveValueSpec we value := by
  cases value <;> simp only [resolveValue, resolveValueSpec]
  case vStr s =>
    split
    · split
      · cases hl : assocLookup we.task_executions
            (String.mk (splitFirst '.' (strDropRight (strDrop s 2) 1).data).1) with
        | none => rfl
        | some te =>
          cases hr : te.result with
          | none => simp [optTruthy, hr]
          | some r =>
            simp only [optTruthy, hr, Option.getD_some]
            by_cases hc : (decide (te.status = TaskStatus.completed) && r.truthy) = true
            · rw [if_pos hc, if_pos hc]
              cases r with
              | vNone => rfl
              | vBool b => rfl
              | vInt n => rfl
              | vStr s2 => rfl
              | vList l => rfl
              | vDict d =>
                dsimp only
                cases assocLookup d
                    (String.mk (splitFirst '.' (strDropRight (strDrop s 2) 1).data).2) <;> rfl
            · rw [if_neg hc, if_neg hc]
      · rfl
    · rfl

theorem resolveFold_lookup_not_mem (we : WorkflowExecution)
    (l : List (String × PyValue)) (acc : List (String × PyValue)) (key : String)
    (h : key ∉ l.map Prod.fst) :
    assocLookup (l.foldl (resolveStep we) acc) key = assocLookup acc key := by
  induction l generalizing acc with
  | nil => rfl
  | cons hd tl ih =>
    simp only [List.map_cons, List.mem_cons] at h
    push_neg at h
    simp only [List.foldl_cons]
    rw [ih _ h.2]
    unfold resolveStep
    cases resolveValue we hd.2 with
    | none => rfl
    | some v => exact assocLookup_insert_ne _ _ _ _ (fun he => h.1 he.symm)

theorem resolve_inputs_lookup (task_def : TaskDefinition)
    (we : WorkflowExecution) (key : String) (value : PyValue)
    (hnd : (task_def.inputs.map Prod.fst).Nodup)
    (hmem : (key, value) ∈ task_def.inputs) :
    assocLookup (resolve_inputs task_def we) key = resolveValue we value := by
  unfold resolve_inputs
  suffices h : ∀ l acc : List (String × PyValue),
      (l.map Prod.fst).Nodup → (key, value) ∈ l →
      assocLookup acc key = Option.none →
      assocLookup (l.foldl (resolveStep we) acc) key = resolveValue we value by
    exact h task_def.inputs [] hnd hmem rfl
  intro l
  induction l with
  | nil =>
    intro acc _ hm _
    simp at hm
  | cons hd tl ih =>
    intro acc hnd2 hm hacc
    simp only [List.map_cons, List.nodup_cons] at hnd2
    simp only [List.foldl_cons]
    rcases List.mem_cons.mp hm with h1 | h1
    · cases h1
      rw [resolveFold_lookup_not_mem we tl _ key hnd2.1]
      unfold resolveStep
      cases hv : resolveValue we value with
      | none => rw [hacc]
      | some v => rw [assocLookup_insert_self]
    · have hne : hd.1 ≠ key := by
        intro he
        exact hnd2.1 (he ▸ List.mem_map.mpr ⟨(key, value), h1, rfl⟩)
      apply ih _ hnd2.2 h1
      unfold resolveStep
      cases resolveValue we hd.2 with
      | none => exact hacc
      | some v => rw [assocLookup_insert_ne _ _ _ _ hne]; exact hacc

/-! ### Round and control-loop lemmas -/

theorem applyTaskOutcome_status (we : WorkflowExecution) (td : TaskDefinition)
    (o : Except String PyValue) (s e : Nat) :
    (applyTaskOutcome we td o s e).status = we.status := by
  cases o <;> rfl

theorem applyTaskOutcome_error (we : WorkflowExecution) (td : TaskDefinition)
    (o : Except String PyValue) (s e : Nat) :
    (applyTaskOutcome we td o s e).error = we.error := by
  cases o <;> rfl

theorem applyTaskOutcome_workflow_def (we : WorkflowExecution)
    (td : TaskDefinition) (o : Except String PyValue) (s e : Nat) :
    (applyTaskOutcome we td o s e).workflow_def = we.workflow_def := by
  cases o <;> rfl

theorem applyTaskOutcome_lookup_ne (we : WorkflowExecution)
    (td : TaskDefinition) (o : Except String PyValue) (s e : Nat) (a : String)
    (h : a ≠ td.id) :
    assocLookup (applyTaskOutcome we td o s e).task_executions a =
      assocLookup we.task_executions a := by
  cases o <;> exact assocLookup_insert_ne _ _ _ _ (fun he => h he.symm)

theorem applyTaskOutcome_keys_mem (we : WorkflowExecution)
    (td : TaskDefinition) (o : Except String PyValue) (s e : Nat) (a : String)
    (h : a ∈ assocKeys (applyTaskOutcome we td o s e).task_executions) :
    a = td.id ∨ a ∈ assocKeys we.task_executions := by
  cases o <;> exact (mem_assocKeys_insert _ _ _ _).mp h

theorem applyTaskOutcome_keys_nodup (we : WorkflowExecution)
    (td : TaskDefinition) (o : Except String PyValue) (s e : Nat)
    (h : (assocKeys we.task_executions).Nodup) :
    (assocKeys (applyTaskOutcome we td o s e).task_executions).Nodup := by
  cases o <;> exact nodup_assocKeys_insert _ _ _ h

theorem applyRoundOutcomes_status (now : Nat) (we : WorkflowExecution)
    (l : List (TaskDefinition × Except String PyValue)) :
    (applyRoundOutcomes now we l).status = we.status := by
  induction l generalizing we with
  | nil => rfl
  | cons hd tl ih => rw [applyRoundOutcomes, ih, applyTaskOutcome_status]

theorem applyRoundOutcomes_error (now : Nat) (we : WorkflowExecution)
    (l : List (TaskDefinition × Except String PyValue)) :
    (applyRoundOutcomes now we l).error = we.error := by
  induction l generalizing we with
  | nil => rfl
  | cons hd tl ih => rw [applyRoundOutcomes, ih, applyTaskOutcome_error]

theorem applyRoundOutcomes_workflow_def (now : Nat) (we : WorkflowExecution)
    (l : List (TaskDefinition × Except String PyValue)) :
    (applyRoundOutcomes now we l).workflow_def = we.workflow_def := by
  induction l generalizing we with
  | nil => rfl
  | cons hd tl ih => rw [applyRoundOutcomes, ih, applyTaskOutcome_workflow_def]

theorem applyRoundOutcomes_lookup_not_mem (now : Nat) (we : WorkflowExecution)
    (l : List (TaskDefinition × Except String PyValue)) (a : String)
    (h : a ∉ l.map (fun td => td.1.id)) :
    assocLookup (applyRoundOutcomes now we l).task_executions a =
      assocLookup we.task_executions a := by
  induction l generalizing we with
  | nil => rfl
  | cons hd tl ih =>
    simp only [List.map_cons, List.mem_cons] at h
    push_neg at h
    rw [applyRoundOutcomes, ih _ h.2, applyTaskOutcome_lookup_ne _ _ _ _ _ _ h.1]

theorem applyRoundOutcomes_keys_mem (now : Nat) (we : WorkflowExecution)
    (l : List (TaskDefinition × Except String PyValue)) (a : String)
    (h : a ∈ assocKeys (applyRoundOutcomes now we l).task_executions) :
    a ∈ assocKeys we.task_executions ∨ a ∈ l.map (fun td => td.1.id) := by
  induction l generalizing we with
  | nil => exact Or.inl h
  | cons hd tl ih =>
    rw [applyRoundOutcomes] at h
    rcases ih _ h with h1 | h1
    · rcases applyTaskOutcome_keys_mem _ _ _ _ _ _ h1 with h2 | h2
      · right; simp [h2]
      · exact Or.inl h2
    · right; simp [h1]

theorem applyRoundOutcomes_keys_nodup (now : Nat) (we : WorkflowExecution)
    (l : List (TaskDefinition × Except String PyValue))
    (h : (assocKeys we.task_executions).Nodup) :
    (assocKeys (applyRoundOutcomes now we l).task_executions).Nodup := by
  induction l generalizing we with
  | nil => exact h
  | cons hd tl ih =>
    rw [applyRoundOutcomes]
    exact ih _ (applyTaskOutcome_keys_nodup _ _ _ _ _ h)

theorem applyRoundOutcomes_lookup_ok (now : Nat) (we : WorkflowExecution)
    (l : List (TaskDefinition × Except String PyValue)) (td : TaskDefinition)
    (r : PyValue) (hnd : (l.map (fun td => td.1.id)).Nodup)
    (hm : (td, Except.ok r) ∈ l) :
    assocLookup (applyRoundOutcomes now we l).task_executions td.id =
      Option.some
        { task_def := td, status := TaskStatus.completed,
          started_at := Option.some now, completed_at := Option.some now,
          result := Option.some r, error := Option.none, retry_count := 0 } := by
  induction l generalizing we with
  | nil => simp at hm
  | cons hd tl ih =>
    simp only [List.map_cons, List.nodup_cons] at hnd
    rcases List.mem_cons.mp hm with h1 | h1
    · cases h1
      rw [applyRoundOutcomes,
        applyRoundOutcomes_lookup_not_mem _ _ _ _ hnd.1]
      exact assocLookup_insert_self _ _ _
    · exact ih _ hnd.2 h1

theorem processRound_task_executions (we : WorkflowExecution)
    (l : List (TaskDefinition × Except String PyValue)) (now : Nat) :
    (processRound we l now).task_executions =
      (applyRoundOutcomes now we l).task_executions := by
  unfold processRound
  cases firstError (l.map (fun td => td.2)) <;> rfl

theorem processRound_failed (we : WorkflowExecution)
    (l : List (TaskDefinition × Except String PyValue)) (now : Nat) (e : String)
    (hfe : firstError (l.map (fun td => td.2)) = Option.some e) :
    (processRound we l now).status = WorkflowStatus.failed ∧
      (processRound we l now).error = Option.some e ∧
      (processRound we l now).completed_at = Option.some now := by
  unfold processRound
  rw [hfe]
  exact ⟨rfl, rfl, rfl⟩

theorem processRound_ok (we : WorkflowExecution)
    (l : List (TaskDefinition × Except String PyValue)) (now : Nat)
    (hfe : firstError (l.map (fun td => td.2)) = Option.none) :
    processRound we l now = applyRoundOutcomes now we l := by
  unfold processRound
  rw [hfe]

theorem processRound_workflow_def (we : WorkflowExecution)
    (l : List (TaskDefinition × Except String PyValue)) (now : Nat) :
    (processRound we l now).workflow_def = we.workflow_def := by
  unfold processRound
  cases firstError (l.map (fun td => td.2)) with
  | none => exact applyRoundOutcomes_workflow_def _ _ _
  | some e => exact applyRoundOutcomes_workflow_def _ _ _

theorem processRound_status_cases (we : WorkflowExecution)
    (l : List (TaskDefinition × Except String PyValue)) (now : Nat) :
    (processRound we l now).status = we.status ∨
      (processRound we l now).status = WorkflowStatus.failed := by
  unfold processRound
  cases firstError (l.map (fun td => td.2)) with
  | none => exact Or.inl (applyRoundOutcomes_status _ _ _)
  | some e => exact Or.inr rfl

theorem runLoop_of_not_running
    (oracle : Nat → List (Except String PyValue)) (fuel i : Nat)
    (we : WorkflowExecution) (h : ¬ we.status = WorkflowStatus.running) :
    runLoop oracle (fuel + 1) i we = Option.some we := by
  simp [runLoop, h]

/-! ### Completion-check lemmas -/

theorem mem_keys_completedOrSkipped (we : WorkflowExecution) (a : String)
    (hknd : (assocKeys we.task_executions).Nodup) :
    a ∈ assocKeys (completedOrSkipped we) ↔
      ∃ te, assocLookup we.task_executions a = Option.some te ∧
        (te.status = TaskStatus.completed ∨ te.status = TaskStatus.skipped) := by
  constructor
  · intro h
    obtain ⟨pr, hpr, hfst⟩ := List.mem_map.mp h
    obtain ⟨hmem, hp⟩ := List.mem_filter.mp hpr
    refine ⟨pr.2, ?_, ?_⟩
    · exact assocLookup_of_mem _ _ _ hknd (by rw [← hfst, Prod.mk.eta]; exact hmem)
    · simpa using hp
  · rintro ⟨te, hl, hs⟩
    apply List.mem_map.mpr
    refine ⟨(a, te), List.mem_filter.mpr ⟨assocLookup_mem _ _ _ hl, ?_⟩, rfl⟩
    simpa using hs

theorem keys_completedOrSkipped_subset (we : WorkflowExecution) :
    assocKeys (completedOrSkipped we) ⊆ assocKeys we.task_executions := by
  intro a ha
  obtain ⟨pr, hpr, hfst⟩ := List.mem_map.mp ha
  exact hfst ▸ List.mem_map.mpr ⟨pr, (List.mem_filter.mp hpr).1, rfl⟩

theorem keys_completedOrSkipped_nodup (we : WorkflowExecution)
    (hknd : (assocKeys we.task_executions).Nodup) :
    (assocKeys (completedOrSkipped we)).Nodup :=
  hknd.sublist ((List.filter_sublist _).map _)

theorem completedOrSkipped_length_lt (we : WorkflowExecution)
    (t : TaskDefinition)
    (hids : (we.workflow_def.tasks.map TaskDefinition.id).Nodup)
    (hsub : ∀ k ∈ assocKeys we.task_executions,
      k ∈ we.workflow_def.tasks.map TaskDefinition.id)
    (hknd : (assocKeys we.task_executions).Nodup)
    (ht : t ∈ we.workflow_def.tasks)
    (htid : t.id ∉ assocKeys we.task_executions) :
    (completedOrSkipped we).length < we.workflow_def.tasks.length := by
  have h1 : (completedOrSkipped we).length ≤ we.task_executions.length :=
    List.length_filter_le _ _
  have h2 : we.task_executions.length = (assocKeys we.task_executions).length :=
    (List.length_map _ _).symm
  have hsub' : assocKeys we.task_executions ⊆
      (we.workflow_def.tasks.map TaskDefinition.id).erase t.id := by
    intro k hk
    have hne : k ≠ t.id := fun he => htid (he ▸ hk)
    exact (List.mem_erase_of_ne hne).mpr (hsub k hk)
  have h3 : (assocKeys we.task_executions).length ≤
      ((we.workflow_def.tasks.map TaskDefinition.id).erase t.id).length :=
    (hknd.subperm hsub').length_le
  have h4 : ((we.workflow_def.tasks.map TaskDefinition.id).erase t.id).length =
      (we.workflow_def.tasks.map TaskDefinition.id).length - 1 :=
    List.length_erase_of_mem (List.mem_map.mpr ⟨t, ht, rfl⟩)
  have h5 : (we.workflow_def.tasks.map TaskDefinition.id).length =
      we.workflow_def.tasks.length := List.length_map _ _
  have h6 : 0 < we.workflow_def.tasks.length :=
    List.length_pos.mpr (List.ne_nil_of_mem ht)
  omega

theorem allTasksComplete_iff (we : WorkflowExecution)
    (hids : (we.workflow_def.tasks.map TaskDefinition.id).Nodup)
    (hsub : ∀ k ∈ assocKeys we.task_executions,
      k ∈ we.workflow_def.tasks.map TaskDefinition.id)
    (hknd : (assocKeys we.task_executions).Nodup) :
    allTasksComplete we = true ↔
      ∀ t ∈ we.workflow_def.tasks, ∃ te,
        assocLookup we.task_executions t.id = Option.some te ∧
          (te.status = TaskStatus.completed ∨ te.status = TaskStatus.skipped) := by
  have hcs_nd := keys_completedOrSkipped_nodup we hknd
  have hcs_sub : assocKeys (completedOrSkipped we) ⊆
      we.workflow_def.tasks.map TaskDefinition.id :=
    fun a ha => hsub a (keys_completedOrSkipped_subset we ha)
  have hlen_cs : (completedOrSkipped we).length =
      (assocKeys (completedOrSkipped we)).length := (List.length_map _ _).symm
  constructor
  · intro hall t ht
    have hlen : (completedOrSkipped we).length = we.workflow_def.tasks.length := by
      simpa [allTasksComplete] using hall
    have hfin : (assocKeys (completedOrSkipped we)).toFinset =
        (we.workflow_def.tasks.map TaskDefinition.id).toFinset := by
      apply Finset.eq_of_subset_of_card_le
      · intro a ha
        exact List.mem_toFinset.mpr (hcs_sub (List.mem_toFinset.mp ha))
      · rw [List.toFinset_card_of_nodup hids, List.toFinset_card_of_nodup hcs_nd,
          List.length_map]
        omega
    have hmemid : t.id ∈ assocKeys (completedOrSkipped we) := by
      have h0 : t.id ∈ (we.workflow_def.tasks.map TaskDefinition.id).toFinset :=
        List.mem_toFinset.mpr (List.mem_map.mpr ⟨t, ht, rfl⟩)
      rw [← hfin] at h0
      exact List.mem_toFinset.mp h0
    exact (mem_keys_completedOrSkipped we t.id hknd).mp hmemid
  · intro h
    have hids_sub : we.workflow_def.tasks.map TaskDefinition.id ⊆
        assocKeys (completedOrSkipped we) := by
      intro a ha
      obtain ⟨t, ht, rfl⟩ := List.mem_map.mp ha
      obtain ⟨te, hl, hs⟩ := h t ht
      exact (mem_keys_completedOrSkipped we t.id hknd).mpr ⟨te, hl, hs⟩
    have hfin : (assocKeys (completedOrSkipped we)).toFinset =
        (we.workflow_def.tasks.map TaskDefinition.id).toFinset := by
      apply Finset.Subset.antisymm
      · intro a ha
        exact List.mem_toFinset.mpr (hcs_sub (List.mem_toFinset.mp ha))
      · intro a ha
        exact List.mem_toFinset.mpr (hids_sub (List.mem_toFinset.mp ha))
    have hlen : (assocKeys (completedOrSkipped we)).length =
        (we.workflow_def.tasks.map TaskDefinition.id).length := by
      rw [← List.toFinset_card_of_nodup hcs_nd, ← List.toFinset_card_of_nodup hids,
        hfin]
    simp only [allTasksComplete, decide_eq_true_eq]
    rw [hlen_cs, hlen, List.length_map]

/-! ### Reachability invariant for executions with a dangling dependency -/

theorem not_ready_of_absent_deps (we : WorkflowExecution) (t : TaskDefinition)
    (hdep : t.dependencies ≠ [])
    (habs : ∀ dep ∈ t.dependencies,
      dep ∉ we.workflow_def.tasks.map TaskDefinition.id)
    (hsub : ∀ k ∈ assocKeys we.task_executions,
      k ∈ we.workflow_def.tasks.map TaskDefinition.id) :
    t ∉ get_ready_tasks we := by
  intro hmem
  obtain ⟨-, hfilter⟩ := List.mem_filter.mp hmem
  obtain ⟨d, hd⟩ := List.exists_mem_of_ne_nil t.dependencies hdep
  have hcheck := (Bool.and_eq_true _ _ |>.mp hfilter).2
  rw [check_dependencies_met, List.all_eq_true] at hcheck
  have hda := hcheck d hd
  cases hl : assocLookup we.task_executions d with
  | none => rw [hl] at hda; simp at hda
  | some te =>
    have hdk : d ∈ assocKeys we.task_executions := by
      by_contra hdk
      rw [(assocLookup_eq_none_iff _ _).mpr hdk] at hl
      exact Option.noConfusion hl
    exact habs d hd (hsub d hdk)

/-- The invariant tying an execution state to its workflow `wf` and a task
`t` whose dependencies name no task of `wf`: the task map's keys are task
ids of `wf`, are distinct, never include `t.id`, and the execution has not
completed. -/
def danglingInvariant (wf : WorkflowDefinition) (t : TaskDefinition)
    (we : WorkflowExecution) : Prop :=
  we.workflow_def = wf ∧
    (∀ k ∈ assocKeys we.task_executions, k ∈ wf.tasks.map TaskDefinition.id) ∧
    (assocKeys we.task_executions).Nodup ∧
    t.id ∉ assocKeys we.task_executions ∧
    we.status ≠ WorkflowStatus.completed

theorem engineStep_danglingInvariant (wf : WorkflowDefinition)
    (t : TaskDefinition) (ht : t ∈ wf.tasks) (hdep : t.dependencies ≠ [])
    (habs : ∀ dep ∈ t.dependencies, dep ∉ wf.tasks.map TaskDefinition.id)
    (hids : (wf.tasks.map TaskDefinition.id).Nodup)
    (we we' : WorkflowExecution) (hstep : EngineStep we we')
    (hinv : danglingInvariant wf t we) : danglingInvariant wf t we' := by
  obtain ⟨hwf, hsub, hknd, htid, hncomp⟩ := hinv
  cases hstep with
  | round outcomes now hrun hne =>
    have hready_sub : ∀ td ∈ get_ready_tasks we, td ∈ wf.tasks := by
      intro td htd
      exact hwf ▸ (List.mem_filter.mp htd).1
    have hdisp_ids : ∀ a ∈ ((get_ready_tasks we).zip outcomes).map
        (fun td => td.1.id), a ∈ wf.tasks.map TaskDefinition.id := by
      intro a ha
      obtain ⟨pr, hpr, rfl⟩ := List.mem_map.mp ha
      exact List.mem_map.mpr ⟨pr.1, hready_sub pr.1 (List.of_mem_zip hpr).1, rfl⟩
    have htnotready : t ∉ get_ready_tasks we :=
      not_ready_of_absent_deps we t hdep (hwf ▸ habs) (hwf ▸ hsub)
    refine ⟨?_, ?_, ?_, ?_, ?_⟩
    · rw [processRound_workflow_def]; exact hwf
    · intro k hk
      rw [processRound_task_executions] at hk
      rcases applyRoundOutcomes_keys_mem _ _ _ _ hk with h1 | h1
      · exact hsub k h1
      · exact hdisp_ids k h1
    · rw [processRound_task_executions]
      exact applyRoundOutcomes_keys_nodup _ _ _ hknd
    · intro hmem
      rw [processRound_task_executions] at hmem
      rcases applyRoundOutcomes_keys_mem _ _ _ _ hmem with h1 | h1
      · exact htid h1
      · obtain ⟨pr, hpr, hpr_id⟩ := List.mem_map.mp h1
        have hpr_mem : pr.1 ∈ wf.tasks := hready_sub pr.1 (List.of_mem_zip hpr).1
        have : pr.1 = t := List.inj_on_of_nodup_map hids hpr_mem ht hpr_id
        exact htnotready (this ▸ (List.of_mem_zip hpr).1)
    · rcases processRound_status_cases we ((get_ready_tasks we).zip outcomes) now
          with h1 | h1
      · rw [h1]; exact hncomp
      · rw [h1]; exact WorkflowStatus.noConfusion
  | complete now hrun hempty hall =>
    exfalso
    have hlt : (completedOrSkipped we).length < we.workflow_def.tasks.length :=
      completedOrSkipped_length_lt we t (hwf ▸ hids) (hwf ▸ hsub) hknd
        (hwf ▸ ht) htid
    have heq : (completedOrSkipped we).length = we.workflow_def.tasks.length := by
      simpa [allTasksComplete] using hall
    omega
  | cancel now =>
    exact ⟨hwf, hsub, hknd, htid, WorkflowStatus.noConfusion⟩

theorem reachable_danglingInvariant (wf : WorkflowDefinition)
    (t : TaskDefinition) (ht : t ∈ wf.tasks) (hdep : t.dependencies ≠ [])
    (habs : ∀ dep ∈ t.dependencies, dep ∉ wf.tasks.map TaskDefinition.id)
    (hids : (wf.tasks.map TaskDefinition.id).Nodup)
    (execution_id : String) (input_variables : List (String × PyValue))
    (now : Nat) (we : WorkflowExecution)
    (hreach : Relation.ReflTransGen EngineStep
      (initExecution wf execution_id input_variables now) we) :
    danglingInvariant wf t we := by
  induction hreach with
  | refl =>
    refine ⟨rfl, ?_, ?_, ?_, ?_⟩
    · intro k hk; simp [initExecution, assocKeys] at hk
    · simp [initExecution, assocKeys]
    · simp [initExecution, assocKeys]
    · simp [initExecution]
  | tail hsteps hstep ih =>
    exact engineStep_danglingInvariant wf t ht hdep habs hids _ _ hstep ih

theorem contains_eq_false_iff (l : List String) (a : String) :
    l.contains a = false ↔ a ∉ l := by
  constructor
  · intro h hmem
    have hc : l.contains a = true := List.elem_iff.mpr hmem
    rw [hc] at h
    exact Bool.noConfusion h
  · intro h
    cases hc : l.contains a with
    | false => rfl
    | true => exact absurd (List.elem_iff.mp hc) h

/-! ### Claim theorems -/

/-- C3: `_get_ready_tasks` returns exactly the task definitions that have
no `TaskExecution` yet in the instance's task map and whose every
dependency id maps to a `TaskExecution` with status completed; a task with
a dependency that is failed, skipped, running, or absent is therefore not
returned. -/
theorem C3_ready_tasks_characterization (we : WorkflowExecution)
    (t : TaskDefinition) :
    t ∈ get_ready_tasks we ↔
      t ∈ we.workflow_def.tasks ∧
        assocLookup we.task_executions t.id = Option.none ∧
        ∀ dep ∈ t.dependencies, ∃ te,
          assocLookup we.task_executions dep = Option.some te ∧
            te.status = TaskStatus.completed := by
  rw [get_ready_tasks, List.mem_filter]
  constructor
  · rintro ⟨hmem, hb⟩
    obtain ⟨h1, h2⟩ := Bool.and_eq_true _ _ |>.mp hb
    refine ⟨hmem, Option.isNone_iff_eq_none.mp h1, ?_⟩
    intro dep hdep
    rw [check_dependencies_met, List.all_eq_true] at h2
    have hda := h2 dep hdep
    cases hl : assocLookup we.task_executions dep with
    | none => rw [hl] at hda; simp at hda
    | some te =>
      rw [hl] at hda
      simp only [decide_eq_true_eq] at hda
      exact ⟨te, rfl, hda⟩
  · rintro ⟨hmem, hnone, hdeps⟩
    refine ⟨hmem, Bool.and_eq_true _ _ |>.mpr ⟨Option.isNone_iff_eq_none.mpr hnone, ?_⟩⟩
    rw [check_dependencies_met, List.all_eq_true]
    intro dep hdep
    obtain ⟨te, hl, hs⟩ := hdeps dep hdep
    rw [hl]
    simp [hs]

/-- C6: `_calculate_start_end_tasks` computes the start set as exactly the
tasks whose dependency list is empty or references no task id of the
workflow, and the end set as exactly the tasks no other task lists as a
dependency; when every task's dependency list is empty, both sets hold
every task. -/
theorem C6_start_end_tasks (wf : WorkflowDefinition) :
    (∀ a, a ∈ (calculate_start_end_tasks wf).start_tasks ↔
      ∃ t ∈ wf.tasks, t.id = a ∧
        (t.dependencies = [] ∨
          ∀ dep ∈ t.dependencies, dep ∉ wf.tasks.map TaskDefinition.id)) ∧
    (∀ a, a ∈ (calculate_start_end_tasks wf).end_tasks ↔
      ∃ t ∈ wf.tasks, t.id = a ∧ ∀ t' ∈ wf.tasks, a ∉ t'.dependencies) ∧
    ((∀ t ∈ wf.tasks, t.dependencies = []) →
      (calculate_start_end_tasks wf).start_tasks =
        wf.tasks.map TaskDefinition.id ∧
      (calculate_start_end_tasks wf).end_tasks =
        wf.tasks.map TaskDefinition.id) := by
  refine ⟨?_, ?_, ?_⟩
  · intro a
    simp only [calculate_start_end_tasks, List.mem_map, List.mem_filter,
      Bool.or_eq_true, List.isEmpty_iff, List.all_eq_true, Bool.not_eq_true',
      contains_eq_false_iff]
    constructor
    · rintro ⟨t, ⟨hmem, hcond⟩, rfl⟩
      exact ⟨t, hmem, rfl, hcond⟩
    · rintro ⟨t, hmem, rfl, hcond⟩
      exact ⟨t, ⟨hmem, hcond⟩, rfl⟩
  · intro a
    simp only [calculate_start_end_tasks, List.mem_map, List.mem_filter,
      Bool.not_eq_true', contains_eq_false_iff, List.mem_flatMap]
    constructor
    · rintro ⟨t, ⟨hmem, hcond⟩, rfl⟩
      refine ⟨t, hmem, rfl, ?_⟩
      intro t' hmem' hdep
      exact hcond ⟨t', hmem', hdep⟩
    · rintro ⟨t, hmem, rfl, hcond⟩
      refine ⟨t, ⟨hmem, ?_⟩, rfl⟩
      rintro ⟨t', hmem', hdep⟩
      exact hcond t' hmem' hdep
  · intro hall
    constructor
    · simp only [calculate_start_end_tasks]
      have hfeq : (wf.tasks.filter fun task =>
          task.dependencies.isEmpty || task.dependencies.all fun dep =>
            !(wf.tasks.map fun task => task.id).contains dep) = wf.tasks :=
        List.filter_eq_self.mpr (fun t hmem => by simp [hall t hmem])
      exact congrArg (List.map fun task => task.id) hfeq
    · simp only [calculate_start_end_tasks]
      have hfeq : (wf.tasks.filter fun task =>
          !(wf.tasks.flatMap fun task => task.dependencies).contains task.id) =
          wf.tasks := by
        apply List.filter_eq_self.mpr
        intro t hmem
        rw [Bool.not_eq_true', contains_eq_false_iff]
        intro hmem2
        obtain ⟨t', hmem', hdep⟩ := List.mem_flatMap.mp hmem2
        rw [hall t' hmem'] at hdep
        exact absurd hdep (List.not_mem_nil _)
      exact congrArg (List.map fun task => task.id) hfeq

/-- C5: with no ready tasks and the control loop still running, the
completion check transitions the execution to completed, recording the end
time, exactly when every task of the workflow has a completed-or-skipped
`TaskExecution`; otherwise it leaves the execution unchanged.  The task
map's keys are assumed distinct task ids of the workflow (which has
distinct task ids), the invariants of states the engine produces. -/
theorem C5_completion_check (we : WorkflowExecution) (now : Nat)
    (hids : (we.workflow_def.tasks.map TaskDefinition.id).Nodup)
    (hsub : ∀ k ∈ assocKeys we.task_executions,
      k ∈ we.workflow_def.tasks.map TaskDefinition.id)
    (hknd : (assocKeys we.task_executions).Nodup)
    (hrun : we.status = WorkflowStatus.running)
    (hready : get_ready_tasks we = []) :
    ((checkCompletionStep we now).status = WorkflowStatus.completed ↔
      ∀ t ∈ we.workflow_def.tasks, ∃ te,
        assocLookup we.task_executions t.id = Option.some te ∧
          (te.status = TaskStatus.completed ∨ te.status = TaskStatus.skipped)) ∧
    ((checkCompletionStep we now).status = WorkflowStatus.completed →
      (checkCompletionStep we now).completed_at = Option.some now) ∧
    ((checkCompletionStep we now).status ≠ WorkflowStatus.completed →
      checkCompletionStep we now = we) := by
  by_cases hall : allTasksComplete we = true
  · have hstep : checkCompletionStep we now =
        { we with
            status := WorkflowStatus.completed, completed_at := Option.some now } := by
      simp only [checkCompletionStep, if_pos hall]
    refine ⟨?_, ?_, ?_⟩
    · rw [hstep]
      exact iff_of_true rfl ((allTasksComplete_iff we hids hsub hknd).mp hall)
    · intro _
      rw [hstep]
    · intro hne
      exact absurd (by rw [hstep]) hne
  · have hstep : checkCompletionStep we now = we := by
      simp only [checkCompletionStep, if_neg hall]
    refine ⟨?_, ?_, ?_⟩
    · rw [hstep, hrun]
      constructor
      · intro h; exact absurd h WorkflowStatus.noConfusion
      · intro h
        exact absurd ((allTasksComplete_iff we hids hsub hknd).mpr h) hall
    · intro h
      rw [hstep, hrun] at h
      exact absurd h WorkflowStatus.noConfusion
    · intro _
      exact hstep

/-- C5 witness: a one-task execution whose task has completed transitions
to completed with the end time recorded. -/
theorem C5_completion_check_witness :
    ((checkCompletionStep c5Exec 7).status = WorkflowStatus.completed ↔
      ∀ t ∈ c5Exec.workflow_def.tasks, ∃ te,
        assocLookup c5Exec.task_executions t.id = Option.some te ∧
          (te.status = TaskStatus.completed ∨ te.status = TaskStatus.skipped)) ∧
    ((checkCompletionStep c5Exec 7).status = WorkflowStatus.completed →
      (checkCompletionStep c5Exec 7).completed_at = Option.some 7) ∧
    ((checkCompletionStep c5Exec 7).status ≠ WorkflowStatus.completed →
      checkCompletionStep c5Exec 7 = c5Exec) :=
  C5_completion_check c5Exec 7 (by decide) (by decide) (by decide) rfl rfl

/-- C4: when a round's gathered results contain a failure, the execution is
marked failed with the round's first error and its end time, the control
loop starts no further round, previously completed task executions keep
their status and results, and the round's own successful tasks remain
recorded as completed with their results. -/
theorem C4_round_failure (we : WorkflowExecution)
    (dispatched : List (TaskDefinition × Except String PyValue)) (now : Nat)
    (e : String)
    (hnd : (dispatched.map (fun td => td.1.id)).Nodup)
    (hfe : firstError (dispatched.map (fun td => td.2)) = Option.some e) :
    (processRound we dispatched now).status = WorkflowStatus.failed ∧
    (processRound we dispatched now).error = Option.some e ∧
    (processRound we dispatched now).completed_at = Option.some now ∧
    (∀ oracle fuel i,
      runLoop oracle (fuel + 1) i (processRound we dispatched now) =
        Option.some (processRound we dispatched now)) ∧
    (∀ a te, assocLookup we.task_executions a = Option.some te →
      te.status = TaskStatus.completed →
      a ∉ dispatched.map (fun td => td.1.id) →
      assocLookup (processRound we dispatched now).task_executions a =
        Option.some te) ∧
    (∀ td r, (td, Except.ok r) ∈ dispatched →
      ∃ te, assocLookup (processRound we dispatched now).task_executions td.id =
          Option.some te ∧ te.status = TaskStatus.completed ∧
          te.result = Option.some r) := by
  obtain ⟨h1, h2, h3⟩ := processRound_failed we dispatched now e hfe
  refine ⟨h1, h2, h3, ?_, ?_, ?_⟩
  · intro oracle fuel i
    apply runLoop_of_not_running
    rw [h1]
    exact WorkflowStatus.noConfusion
  · intro a te hl hs hnm
    rw [processRound_task_executions,
      applyRoundOutcomes_lookup_not_mem _ _ _ _ hnm]
    exact hl
  · intro td r hm
    rw [processRound_task_executions]
    exact ⟨_, applyRoundOutcomes_lookup_ok now we dispatched td r hnd hm, rfl, rfl⟩

/-- C4 witness: a round with one success and one failure on an execution
with a prior completed task. -/
theorem C4_round_failure_witness :
    (processRound c4Exec c4Round 3).status = WorkflowStatus.failed ∧
    (processRound c4Exec c4Round 3).error = Option.some "boom" ∧
    (processRound c4Exec c4Round 3).completed_at = Option.some 3 ∧
    (∀ oracle fuel i,
      runLoop oracle (fuel + 1) i (processRound c4Exec c4Round 3) =
        Option.some (processRound c4Exec c4Round 3)) ∧
    (∀ a te, assocLookup c4Exec.task_executions a = Option.some te →
      te.status = TaskStatus.completed →
      a ∉ c4Round.map (fun td => td.1.id) →
      assocLookup (processRound c4Exec c4Round 3).task_executions a =
        Option.some te) ∧
    (∀ td r, (td, Except.ok r) ∈ c4Round →
      ∃ te, assocLookup (processRound c4Exec c4Round 3).task_executions td.id =
          Option.some te ∧ te.status = TaskStatus.completed ∧
          te.result = Option.some r) :=
  C4_round_failure c4Exec c4Round 3 "boom" (by decide) rfl

/-- C7: cancelling an unknown execution id raises a not-found error (the
registry is untouched, the exception propagating before any mutation);
cancelling a registered execution sets it cancelled, records the end time,
and removes exactly that instance from the registry. -/
theorem C7_cancel_workflow (s : WorkflowEngineState) (execution_id : String)
    (now : Nat) :
    (assocLookup s.active_executions execution_id = Option.none →
      cancel_workflow s execution_id now =
        Except.error ("Workflow execution " ++ execution_id ++ " not found")) ∧
    (∀ we, assocLookup s.active_executions execution_id = Option.some we →
      ∃ we' s', cancel_workflow s execution_id now = Except.ok (we', s') ∧
        we'.status = WorkflowStatus.cancelled ∧
        we'.completed_at = Option.some now ∧
        assocLookup s'.active_executions execution_id = Option.none ∧
        (∀ other, other ≠ execution_id →
          assocLookup s'.active_executions other =
            assocLookup s.active_executions other) ∧
        s'.workflow_definitions = s.workflow_definitions) := by
  constructor
  · intro h
    unfold cancel_workflow
    rw [h]
  · intro we h
    unfold cancel_workflow
    rw [h]
    refine ⟨_, _, rfl, rfl, rfl, assocLookup_erase_self _ _, ?_, rfl⟩
    intro other hne
    exact assocLookup_erase_ne _ _ _ hne

/-- C8: registration is idempotent, the stored definition carries the
computed start/end task lists, and those lists are a function of the task
list alone. -/
theorem C8_register_idempotent (defs : List (String × WorkflowDefinition))
    (wf wf2 : WorkflowDefinition) (hts : wf.tasks = wf2.tasks) :
    register_workflow (register_workflow defs wf) wf = register_workflow defs wf ∧
    assocLookup (register_workflow defs wf) wf.id =
      Option.some (calculate_start_end_tasks wf) ∧
    (calculate_start_end_tasks wf).start_tasks =
      (calculate_start_end_tasks wf2).start_tasks ∧
    (calculate_start_end_tasks wf).end_tasks =
      (calculate_start_end_tasks wf2).end_tasks := by
  refine ⟨?_, ?_, ?_, ?_⟩
  · unfold register_workflow
    exact assocInsert_idem _ _ _
  · unfold register_workflow
    exact assocLookup_insert_self _ _ _
  · simp [calculate_start_end_tasks, hts]
  · simp [calculate_start_end_tasks, hts]

/-- C8 witness: two definitions sharing a task list yield the same
start/end sets, and registration of the first is idempotent. -/
theorem C8_register_idempotent_witness :
    register_workflow (register_workflow [] c8WfA) c8WfA =
      register_workflow [] c8WfA ∧
    assocLookup (register_workflow [] c8WfA) c8WfA.id =
      Option.some (calculate_start_end_tasks c8WfA) ∧
    (calculate_start_end_tasks c8WfA).start_tasks =
      (calculate_start_end_tasks c8WfB).start_tasks ∧
    (calculate_start_end_tasks c8WfA).end_tasks =
      (calculate_start_end_tasks c8WfB).end_tasks :=
  C8_register_idempotent [] c8WfA c8WfB rfl

/-- C9: a task whose non-empty dependency list names no task id of its
workflow is classified as a start task at registration, yet in every
execution state reachable by the engine from a fresh instance it is never
among the ready tasks, and the execution never transitions to completed. -/
theorem C9_dangling_dependency_never_completes (wf : WorkflowDefinition)
    (t : TaskDefinition) (ht : t ∈ wf.tasks) (hdep : t.dependencies ≠ [])
    (habs : ∀ dep ∈ t.dependencies, dep ∉ wf.tasks.map TaskDefinition.id)
    (hids : (wf.tasks.map TaskDefinition.id).Nodup) :
    t.id ∈ (calculate_start_end_tasks wf).start_tasks ∧
    ∀ execution_id input_variables now we,
      Relation.ReflTransGen EngineStep
        (initExecution wf execution_id input_variables now) we →
      t ∉ get_ready_tasks we ∧ we.status ≠ WorkflowStatus.completed := by
  constructor
  · apply List.mem_map.mpr
    refine ⟨t, List.mem_filter.mpr ⟨ht, ?_⟩, rfl⟩
    apply Bool.or_eq_true _ _ |>.mpr
    right
    rw [List.all_eq_true]
    intro dep hdep2
    rw [Bool.not_eq_true', contains_eq_false_iff]
    exact habs dep hdep2
  · intro execution_id input_variables now we hreach
    obtain ⟨hwf, hsub, hknd, htid, hncomp⟩ :=
      reachable_danglingInvariant wf t ht hdep habs hids execution_id
        input_variables now we hreach
    exact ⟨not_ready_of_absent_deps we t hdep (hwf ▸ habs) (hwf ▸ hsub), hncomp⟩

/-- C9 witness: the one-task workflow whose task depends on the absent id
`"ghost"`. -/
theorem C9_dangling_dependency_never_completes_witness :
    c9Task.id ∈ (calculate_start_end_tasks c9Wf).start_tasks ∧
    ∀ execution_id input_variables now we,
      Relation.ReflTransGen EngineStep
        (initExecution c9Wf execution_id input_variables now) we →
      c9Task ∉ get_ready_tasks we ∧ we.status ≠ WorkflowStatus.completed :=
  C9_dangling_dependency_never_completes c9Wf c9Task
    (List.Mem.head _) (by decide) (by decide) (by decide)

/-- C2 counterexample: with no `TaskExecution` for the referenced task the
claim demands the original reference string be passed through, but the
source omits the key from the resolved inputs entirely. -/
theorem C2_counterexample :
    (("b", PyValue.vStr "$\x7bt1.out\x7d") ∈ c2Task.inputs) ∧
    resolve_inputs c2Task c2Exec = [] ∧
    assocLookup (resolve_inputs c2Task c2Exec) "b" ≠
      Option.some (PyValue.vStr "$\x7bt1.out\x7d") := by
  refine ⟨List.Mem.head _, rfl, ?_⟩
  intro h
  rw [show assocLookup (resolve_inputs c2Task c2Exec) "b" = Option.none from rfl]
    at h
  exact Option.noConfusion h

/-- C2 (amended): each declared input key resolves exactly as the amended
per-value policy `resolveValueSpec` prescribes — the key is dropped when a
dotted reference's task has no `TaskExecution`, a completed-but-falsy or
uncompleted referenced task passes the original string through, and a
completed truthy result yields the named entry of a map result containing
the output name and otherwise the whole result. -/
theorem C2_amended_resolution (task_def : TaskDefinition)
    (we : WorkflowExecution) (key : String) (value : PyValue)
    (hnd : (task_def.inputs.map Prod.fst).Nodup)
    (hmem : (key, value) ∈ task_def.inputs) :
    assocLookup (resolve_inputs task_def we) key = resolveValueSpec we value := by
  rw [resolve_inputs_lookup task_def we key value hnd hmem, resolveValue_eq_spec]

/-- C2 witness: the dangling reference input of `c2Task` resolves (to a
dropped key) exactly as the amended policy prescribes. -/
theorem C2_amended_resolution_witness :
    assocLookup (resolve_inputs c2Task c2Exec) "b" =
      resolveValueSpec c2Exec (PyValue.vStr "$\x7bt1.out\x7d") :=
  C2_amended_resolution c2Task c2Exec "b" (PyValue.vStr "$\x7bt1.out\x7d")
    (by decide) (List.Mem.head _)

/-- C10: a dotted reference to a task whose `TaskExecution` is completed
but whose stored result is falsy (None, 0, empty string or empty map) is
left unresolved: the original reference string is passed through, because
the source tests the result's truthiness and not only completion. -/
theorem C10_falsy_result_passthrough (task_def : TaskDefinition)
    (we : WorkflowExecution) (key s : String) (te : TaskExecution)
    (hnd : (task_def.inputs.map Prod.fst).Nodup)
    (hmem : (key, PyValue.vStr s) ∈ task_def.inputs)
    (href : (strStartsWith s refOpen && strEndsWith s refClose) = true)
    (hdot : strContainsChar (strDropRight (strDrop s 2) 1) '.' = true)
    (hlookup : assocLookup we.task_executions
      (String.mk (splitFirst '.' (strDropRight (strDrop s 2) 1).data).1) =
        Option.some te)
    (hstatus : te.status = TaskStatus.completed)
    (hfalsy : optTruthy te.result = false) :
    assocLookup (resolve_inputs task_def we) key =
      Option.some (PyValue.vStr s) := by
  rw [resolve_inputs_lookup task_def we key _ hnd hmem]
  cases hr : te.result with
  | none => simp [resolveValue, href, hdot, hlookup, hr]
  | some r =>
    have hrt : r.truthy = false := by simpa [optTruthy, hr] using hfalsy
    simp [resolveValue, href, hdot, hlookup, hr, hrt]

/-- C10 witness: a completed task with an empty-dict result leaves the
reference `"$\x7bt1.out\x7d"` unresolved. -/
theorem C10_falsy_result_passthrough_witness :
    assocLookup (resolve_inputs c10Task c10Exec) "x" =
      Option.some (PyValue.vStr "$\x7bt1.out\x7d") :=
  C10_falsy_result_passthrough c10Task c10Exec "x" "$\x7bt1.out\x7d"
    { task_def := { id := "t1", framework := "fw", operation := "op" },
      status := TaskStatus.completed,
      result := Option.some (PyValue.vDict []) }
    (by decide) (List.Mem.head _) (by decide) (by decide) rfl rfl rfl

/-- C1: contrary to the claim, `execute_workflow` runs the control loop to
its end within the call: on the concrete registered one-task workflow the
call returns the execution id only with the execution already completed
(a terminal status) and already removed from the registry, so polling
`get_workflow_status` afterwards observes nothing. -/
theorem C1_execute_blocks_until_terminal :
    ∃ final s', execute_workflow c1State "wf1" [] "exec-1" c1Oracle 5 0 =
        Except.ok (Option.some ("exec-1", final, s')) ∧
      final.status = WorkflowStatus.completed ∧
      (get_workflow_status s' "exec-1").isNone = true :=
  ⟨_, _, rfl, rfl, rfl⟩

end AgentBridge
